import Mathlib

/-
Verification of the Chemical System Model Builder of Reaktoro.

The repository ships the Python test `src/Reaktoro/Core/ChemicalSystem.py`
exercising the `ChemicalSystem` assembly API; the assembler itself lives in
native code outside the sampled sources.  The definitions below therefore
model the assembler from the specification (data model, assembly algorithm,
id counter, formula matrix), and the concrete reference scenario reproduces
the database, phases, reactions and surfaces used by the test.
-/

set_option maxRecDepth 4000

namespace Reaktoro

/-- Modelled from the spec: a species is identified by name, has an elemental
composition (mapping element symbol to stoichiometric coefficient, the
entries listed being the nonzero ones) and an electrical charge.
The `ChemicalSystem` implementation is not under the sampled sources. -/
structure Species where
  name : String
  formula : List (String × Int)
  charge : Int
deriving Repr, DecidableEq

/-- Stoichiometric coefficient of element symbol `e` in species `s`:
zero where the element is absent from the species' formula. -/
def Species.coeff (s : Species) (e : String) : Int :=
  match s.formula.find? (fun q => q.1 = e) with
  | some q => q.2
  | none => 0

/-- Modelled from the spec: the read-only database catalogs the known
elements (in the database's deterministic element ordering) and the known
species. -/
structure Database where
  elementList : List String
  speciesList : List Species
deriving Repr, DecidableEq

/-- Name-based species resolution against the database. -/
def Database.findSpecies (db : Database) (nm : String) : Option Species :=
  db.speciesList.find? (fun s => s.name = nm)

/-- Modelled from the spec: a phase declaration names the phase and lists the
names of its species, to be resolved against the database. -/
structure PhaseDecl where
  name : String
  speciesNames : List String
deriving Repr, DecidableEq

/-- A resolved phase: the declared name together with the resolved species. -/
structure Phase where
  name : String
  speciesList : List Species
deriving Repr, DecidableEq

/-- Modelled from the spec: a reaction declaration carries its stoichiometric
equation; its rate model is an opaque callback never invoked during
assembly, so it is not represented. -/
structure Reaction where
  equation : String
deriving Repr, DecidableEq

/-- Modelled from the spec: a reactive surface declaration carries its name;
its area model is an opaque callback never invoked during assembly. -/
structure Surface where
  name : String
deriving Repr, DecidableEq

/-- Modelled from the spec: the assembled, immutable aggregate: back-reference
to the database, global element list, global species list, phase list,
reaction list, surface list, and the process-wide identifier. -/
structure ChemicalSystem where
  database : Database
  elementSyms : List String
  speciesList : List Species
  phaseList : List Phase
  reactionList : List Reaction
  surfaceList : List Surface
  id : Nat
deriving Repr, DecidableEq

/-- Resolve a list of species names against the database; an unresolved name
is a construction-time error with a descriptive message. -/
def resolveNames (db : Database) : List String → Except String (List Species)
  | [] => Except.ok []
  | nm :: rest =>
    match db.findSpecies nm with
    | some s =>
      match resolveNames db rest with
      | Except.ok l => Except.ok (s :: l)
      | Except.error e => Except.error e
    | none => Except.error ("Could not resolve species with name " ++ nm ++ " against the database")

/-- Resolve one phase declaration against the database. -/
def resolvePhase (db : Database) (p : PhaseDecl) : Except String Phase :=
  match resolveNames db p.speciesNames with
  | Except.ok l => Except.ok ⟨p.name, l⟩
  | Except.error e => Except.error e

/-- Resolve the phase declarations in declaration order, failing on the first
unresolved species. -/
def resolvePhases (db : Database) : List PhaseDecl → Except String (List Phase)
  | [] => Except.ok []
  | p :: rest =>
    match resolvePhase db p with
    | Except.ok ph =>
      match resolvePhases db rest with
      | Except.ok l => Except.ok (ph :: l)
      | Except.error e => Except.error e
    | Except.error e => Except.error e

/-- Whether element symbol `e` appears in the formula of some species of the
resolved phases. -/
def elementUsed (phs : List Phase) (e : String) : Bool :=
  phs.any (fun p => p.speciesList.any (fun s => s.formula.any (fun q => q.1 = e)))

/-- Modelled from the spec: assemble the indexed snapshot from resolved
phases: the global element list is the database's element ordering
restricted to the elements referenced by some included species; the global
species list is the concatenation of the phases' species lists in phase
order; reactions and surfaces are attached as-is; `n` is the identifier
assigned from the process-wide counter. -/
def buildSystem (db : Database) (phs : List Phase) (rs : List Reaction)
    (ss : List Surface) (n : Nat) : ChemicalSystem :=
  ⟨db, db.elementList.filter (elementUsed phs),
   (phs.map Phase.speciesList).flatten, phs, rs, ss, n⟩

/-- Modelled from the spec: construction shape 1, from a pre-built phases
collection bound to a database, with identifier `n`. -/
def assemble (db : Database) (decls : List PhaseDecl) (n : Nat) :
    Except String ChemicalSystem :=
  match resolvePhases db decls with
  | Except.ok phs => Except.ok (buildSystem db phs [] [] n)
  | Except.error e => Except.error e

/-- Modelled from the spec: the items of the variadic construction shape are
polymorphic over phase declarations, multi-mineral declarations, reaction
declarations and surface declarations. -/
inductive Item where
  | phase (p : PhaseDecl)
  | minerals (names : List String)
  | reaction (r : Reaction)
  | surface (s : Surface)
deriving Repr, DecidableEq

/-- A single-mineral phase declaration: the phase carries the mineral's name
and contains exactly that mineral species. -/
def mineralPhase (m : String) : PhaseDecl := ⟨m, [m]⟩

/-- Phase declarations contributed by one variadic item: a `MineralPhases`
declaration naming k minerals expands to k single-mineral phases at its
position; reaction and surface items contribute none. -/
def itemPhases : Item → List PhaseDecl
  | Item.phase p => [p]
  | Item.minerals ms => ms.map mineralPhase
  | Item.reaction _ => []
  | Item.surface _ => []

/-- Reaction declarations contributed by one variadic item. -/
def itemReactions : Item → List Reaction
  | Item.reaction r => [r]
  | _ => []

/-- Surface declarations contributed by one variadic item. -/
def itemSurfaces : Item → List Surface
  | Item.surface s => [s]
  | _ => []

/-- The phase declarations of a variadic item list, in encounter order, with
multi-mineral declarations expanded in place. -/
def phaseDeclsOf (items : List Item) : List PhaseDecl :=
  (items.map itemPhases).flatten

/-- Modelled from the spec: construction shape 2, the variadic
`ChemicalSystem(database, item1, item2, …)`: partition the item list by kind
preserving the relative order of phases, collect reactions and surfaces in
encounter order, and assemble. -/
def assembleItems (db : Database) (items : List Item) (n : Nat) :
    Except String ChemicalSystem :=
  match resolvePhases db (phaseDeclsOf items) with
  | Except.ok phs =>
    Except.ok (buildSystem db phs ((items.map itemReactions).flatten)
      ((items.map itemSurfaces).flatten) n)
  | Except.error e => Except.error e

/-- Derived formula matrix: one row per global element holding that element's
stoichiometric coefficient in each species, plus a final charge row. -/
def ChemicalSystem.formulaMatrix (sys : ChemicalSystem) : List (List Int) :=
  sys.elementSyms.map (fun e => sys.speciesList.map (fun s => s.coeff e))
    ++ [sys.speciesList.map Species.charge]

/-- Modelled from the spec: one construction request of the process — default
construction or one of the two construction shapes. -/
inductive Request where
  | defaultCtor
  | fromPhases (db : Database) (decls : List PhaseDecl)
  | fromItems (db : Database) (items : List Item)
deriving Repr, DecidableEq

/-- The empty database backing default construction. -/
def emptyDatabase : Database := ⟨[], []⟩

/-- Modelled from the spec: perform one construction with the current value
`n` of the process-wide id counter: the constructed system receives id `n`
and the counter increments; a failed construction returns no system and is
atomic. -/
def constructOne (req : Request) (n : Nat) : Except String ChemicalSystem × Nat :=
  match req with
  | Request.defaultCtor => (Except.ok (buildSystem emptyDatabase [] [] [] n), n + 1)
  | Request.fromPhases db decls =>
    match assemble db decls n with
    | Except.ok s => (Except.ok s, n + 1)
    | Except.error e => (Except.error e, n)
  | Request.fromItems db items =>
    match assembleItems db items n with
    | Except.ok s => (Except.ok s, n + 1)
    | Except.error e => (Except.error e, n)

/-- Run a sequence of constructions in one process, threading the process-wide
id counter; returns the successfully constructed systems in order together
with the final counter. -/
def constructAll : List Request → Nat → List ChemicalSystem × Nat
  | [], n => ([], n)
  | r :: rs, n =>
    match constructOne r n with
    | (Except.ok s, n') =>
      (s :: (constructAll rs n').1, (constructAll rs n').2)
    | (Except.error _, n') => constructAll rs n'

/-
The reference scenario of the test: a database holding the species used by
the test (plus unused extras, as a real database has more), with the
elements in the database's deterministic ordering (by molar mass, as the
expected formula-matrix row order H, C, O, Na, Mg, Si, Cl, Ca shows).
-/

/-- Element ordering of the reference database; S and Fe are catalogued but
referenced by no included species. -/
def refElements : List String :=
  ["H", "C", "O", "Na", "Mg", "Si", "Cl", "Ca", "S", "Fe"]

/-- Species catalog of the reference database. -/
def refSpecies : List Species :=
  [⟨"H2O(aq)", [("H", 2), ("O", 1)], 0⟩,
   ⟨"H+", [("H", 1)], 1⟩,
   ⟨"OH-", [("O", 1), ("H", 1)], -1⟩,
   ⟨"Na+", [("Na", 1)], 1⟩,
   ⟨"Cl-", [("Cl", 1)], -1⟩,
   ⟨"Ca+2", [("Ca", 1)], 2⟩,
   ⟨"Mg+2", [("Mg", 1)], 2⟩,
   ⟨"HCO3-", [("H", 1), ("C", 1), ("O", 3)], -1⟩,
   ⟨"CO3-2", [("C", 1), ("O", 3)], -2⟩,
   ⟨"CO2(aq)", [("C", 1), ("O", 2)], 0⟩,
   ⟨"SiO2(aq)", [("Si", 1), ("O", 2)], 0⟩,
   ⟨"H2O(g)", [("H", 2), ("O", 1)], 0⟩,
   ⟨"CO2(g)", [("C", 1), ("O", 2)], 0⟩,
   ⟨"Halite", [("Na", 1), ("Cl", 1)], 0⟩,
   ⟨"Calcite", [("Ca", 1), ("C", 1), ("O", 3)], 0⟩,
   ⟨"Magnesite", [("Mg", 1), ("C", 1), ("O", 3)], 0⟩,
   ⟨"Dolomite", [("Ca", 1), ("Mg", 1), ("C", 2), ("O", 6)], 0⟩,
   ⟨"Quartz", [("Si", 1), ("O", 2)], 0⟩,
   ⟨"O2(g)", [("O", 2)], 0⟩,
   ⟨"Pyrite", [("Fe", 1), ("S", 2)], 0⟩]

/-- The reference database. -/
def refDb : Database := ⟨refElements, refSpecies⟩

/-- The 11-species aqueous phase of the test. -/
def aqueousPhase : PhaseDecl :=
  ⟨"AqueousPhase",
   ["H2O(aq)", "H+", "OH-", "Na+", "Cl-", "Ca+2", "Mg+2", "HCO3-", "CO3-2",
    "CO2(aq)", "SiO2(aq)"]⟩

/-- The 2-species gaseous phase of the test. -/
def gaseousPhase : PhaseDecl := ⟨"GaseousPhase", ["H2O(g)", "CO2(g)"]⟩

/-- The phases collection of the test: aqueous, gaseous and the five
single-mineral phases, in declaration order. -/
def refPhaseDecls : List PhaseDecl :=
  [aqueousPhase, gaseousPhase, mineralPhase "Halite", mineralPhase "Calcite",
   mineralPhase "Magnesite", mineralPhase "Dolomite", mineralPhase "Quartz"]

/-- The system assembled by `ChemicalSystem(phases)` in the test (id 0 taken
as the counter's value there). -/
def refSystem : ChemicalSystem :=
  (assemble refDb refPhaseDecls 0).toOption.getD (buildSystem emptyDatabase [] [] [] 0)

/-- Variadic item list of the phase-only variadic construction of the test:
solution, gases, one mineral phase, and a multi-mineral declaration. -/
def refItems : List Item :=
  [Item.phase aqueousPhase, Item.phase gaseousPhase,
   Item.phase (mineralPhase "Halite"),
   Item.minerals ["Calcite", "Magnesite", "Dolomite", "Quartz"]]

/-- The two database-derived reactions of the test. -/
def reaction1 : Reaction := ⟨"Halite = Na+ + Cl-"⟩

/-- Second database-derived reaction of the test. -/
def reaction2 : Reaction := ⟨"Calcite"⟩

/-- First general reaction of the test. -/
def generalreaction1 : Reaction := ⟨"CO2(g) = CO2(aq)"⟩

/-- Second general reaction of the test. -/
def generalreaction2 : Reaction := ⟨"HCO3- + H+ = CO2(aq) + H2O(aq)"⟩

/-- The built-in surface of the test. -/
def surface1 : Surface := ⟨"Surface1"⟩

/-- The general surface of the test. -/
def surface2 : Surface := ⟨"Surface2"⟩

/-- Variadic item list of the mixed construction of the test: reactions and
surfaces interleaved with the phase declarations, in the test's order. -/
def refItemsMixed : List Item :=
  [Item.phase aqueousPhase, Item.reaction reaction1, Item.phase gaseousPhase,
   Item.reaction reaction2, Item.phase (mineralPhase "Halite"),
   Item.reaction generalreaction1, Item.surface surface1,
   Item.minerals ["Calcite", "Magnesite", "Dolomite", "Quartz"],
   Item.reaction generalreaction2, Item.surface surface2]

/-- The expected formula matrix asserted by the test. -/
def refMatrix : List (List Int) :=
  [[2, 1, 1, 0, 0, 0, 0, 1, 0, 0, 0, 2, 0, 0, 0, 0, 0, 0],
   [0, 0, 0, 0, 0, 0, 0, 1, 1, 1, 0, 0, 1, 0, 1, 1, 2, 0],
   [1, 0, 1, 0, 0, 0, 0, 3, 3, 2, 2, 1, 2, 0, 3, 3, 6, 2],
   [0, 0, 0, 1, 0, 0, 0, 0, 0, 0, 0, 0, 0, 1, 0, 0, 0, 0],
   [0, 0, 0, 0, 0, 0, 1, 0, 0, 0, 0, 0, 0, 0, 0, 1, 1, 0],
   [0, 0, 0, 0, 0, 0, 0, 0, 0, 0, 1, 0, 0, 0, 0, 0, 0, 1],
   [0, 0, 0, 0, 1, 0, 0, 0, 0, 0, 0, 0, 0, 1, 0, 0, 0, 0],
   [0, 0, 0, 0, 0, 1, 0, 0, 0, 0, 0, 0, 0, 0, 1, 0, 1, 0],
   [0, 1, -1, 1, -1, 2, 2, -1, -2, 0, 0, 0, 0, 0, 0, 0, 0, 0]]

/-- The reference construction succeeds and yields `refSystem`. -/
theorem assemble_refSystem : assemble refDb refPhaseDecls 0 = Except.ok refSystem := by
  rfl

/-- Elements of the reference system, in database order. -/
theorem refSystem_elements :
    refSystem.elementSyms = ["H", "C", "O", "Na", "Mg", "Si", "Cl", "Ca"] := by
  rfl

/-- A successful assembly carries exactly the identifier it was given. -/
theorem assemble_ok_id (db : Database) (decls : List PhaseDecl) (n : Nat)
    (s : ChemicalSystem) (h : assemble db decls n = Except.ok s) : s.id = n := by
  unfold assemble at h
  split at h
  · cases h; rfl
  · simp at h

/-- A successful variadic assembly carries exactly the identifier it was
given. -/
theorem assembleItems_ok_id (db : Database) (items : List Item) (n : Nat)
    (s : ChemicalSystem) (h : assembleItems db items n = Except.ok s) : s.id = n := by
  unfold assembleItems at h
  split at h
  · cases h; rfl
  · simp at h

/-- A successful construction yields a system whose id is the counter's value
and increments the counter by one. -/
theorem constructOne_ok (req : Request) (n n' : Nat) (s : ChemicalSystem)
    (h : constructOne req n = (Except.ok s, n')) : s.id = n ∧ n' = n + 1 := by
  cases req with
  | defaultCtor =>
    simp only [constructOne] at h
    injection h with h1 h2
    injection h1 with h1
    subst h1
    exact ⟨rfl, h2.symm⟩
  | fromPhases db decls =>
    simp only [constructOne] at h
    split at h
    next s0 hA =>
      injection h with h1 h2
      injection h1 with h1
      subst h1
      exact ⟨assemble_ok_id db decls n _ hA, h2.symm⟩
    next e hA =>
      injection h with h1 h2
      exact absurd h1 (by simp)
  | fromItems db items =>
    simp only [constructOne] at h
    split at h
    next s0 hA =>
      injection h with h1 h2
      injection h1 with h1
      subst h1
      exact ⟨assembleItems_ok_id db items n _ hA, h2.symm⟩
    next e hA =>
      injection h with h1 h2
      exact absurd h1 (by simp)

/-- A failed construction leaves the counter unchanged and is atomic. -/
theorem constructOne_error (req : Request) (n n' : Nat) (e : String)
    (h : constructOne req n = (Except.error e, n')) : n' = n := by
  cases req with
  | defaultCtor =>
    simp only [constructOne] at h
    injection h with h1 h2
    exact absurd h1 (by simp)
  | fromPhases db decls =>
    simp only [constructOne] at h
    split at h
    next s0 hA =>
      injection h with h1 h2
      exact absurd h1 (by simp)
    next e0 hA =>
      injection h with h1 h2
      exact h2.symm
  | fromItems db items =>
    simp only [constructOne] at h
    split at h
    next s0 hA =>
      injection h with h1 h2
      exact absurd h1 (by simp)
    next e0 hA =>
      injection h with h1 h2
      exact h2.symm

/-- C1: for every sequence of constructions in one process starting from
counter value n, the systems constructed receive the identifiers
n, n + 1, n + 2, … in order: N constructions yield N strictly increasing,
gapless identifiers, each successive id the previous id plus one, and every
id strictly greater than all earlier ones. -/
theorem constructAll_ids_gapless (reqs : List Request) (n : Nat) :
    ((constructAll reqs n).1).map ChemicalSystem.id
        = List.range' n ((constructAll reqs n).1).length
      ∧ (((constructAll reqs n).1).map ChemicalSystem.id).Pairwise (· < ·) := by
  have key : ∀ reqs n, ((constructAll reqs n).1).map ChemicalSystem.id
      = List.range' n ((constructAll reqs n).1).length := by
    intro reqs
    induction reqs with
    | nil => intro n; rfl
    | cons r rs ih =>
      intro n
      rcases hc : constructOne r n with ⟨res, n'⟩
      cases res with
      | ok s =>
        obtain ⟨hid, hn⟩ := constructOne_ok r n n' s hc
        simp only [constructAll, hc, List.map_cons, List.length_cons,
          List.range'_succ, hid, hn, ih]
      | error e =>
        have hn := constructOne_error r n n' e hc
        simp only [constructAll, hc, hn, ih]
  refine ⟨key reqs n, ?_⟩
  rw [key reqs n]
  exact List.pairwise_lt_range' n _ 1

/-- C9: once a system is constructed its id is fixed: performing further
constructions afterwards (default constructions included) only extends the
list of constructed systems and advances the counter; the systems already
constructed, and in particular their ids, are unchanged. -/
theorem constructAll_frame (reqs1 reqs2 : List Request) (n : Nat) :
    constructAll (reqs1 ++ reqs2) n
      = ((constructAll reqs1 n).1 ++ (constructAll reqs2 (constructAll reqs1 n).2).1,
         (constructAll reqs2 (constructAll reqs1 n).2).2) := by
  induction reqs1 generalizing n with
  | nil => simp [constructAll]
  | cons r rs ih =>
    rcases hc : constructOne r n with ⟨res, n'⟩
    cases res with
    | ok s => simp [constructAll, hc, ih]
    | error e => simp [constructAll, hc, ih]

/-- Inversion of a successful assembly: the system is built from the resolved
phases. -/
theorem assemble_ok_inv (db : Database) (decls : List PhaseDecl) (n : Nat)
    (sys : ChemicalSystem) (h : assemble db decls n = Except.ok sys) :
    ∃ phs, resolvePhases db decls = Except.ok phs ∧ sys = buildSystem db phs [] [] n := by
  unfold assemble at h
  split at h
  next phs hr => exact ⟨phs, hr, (Except.ok.inj h).symm⟩
  next e hr => simp at h

/-- Inversion of a successful variadic assembly. -/
theorem assembleItems_ok_inv (db : Database) (items : List Item) (n : Nat)
    (sys : ChemicalSystem) (h : assembleItems db items n = Except.ok sys) :
    ∃ phs, resolvePhases db (phaseDeclsOf items) = Except.ok phs
      ∧ sys = buildSystem db phs ((items.map itemReactions).flatten)
          ((items.map itemSurfaces).flatten) n := by
  unfold assembleItems at h
  split at h
  next phs hr => exact ⟨phs, hr, (Except.ok.inj h).symm⟩
  next e hr => simp at h

/-- C2: the formula matrix of a successfully constructed system has exactly
elements().size() + 1 rows and species().size() columns; entry (i, j) of the
first elements().size() rows is the stoichiometric coefficient of element i
in species j (zero where the element is absent from the species' formula),
and the final row holds each species' electrical charge. -/
theorem formulaMatrix_spec (db : Database) (decls : List PhaseDecl) (n : Nat)
    (sys : ChemicalSystem) (h : assemble db decls n = Except.ok sys) :
    sys.formulaMatrix.length = sys.elementSyms.length + 1
    ∧ (∀ row ∈ sys.formulaMatrix, row.length = sys.speciesList.length)
    ∧ (∀ i, ∀ hi : i < sys.elementSyms.length, ∀ j, ∀ hj : j < sys.speciesList.length,
        (sys.formulaMatrix.getD i []).getD j 0
          = (sys.speciesList.get ⟨j, hj⟩).coeff (sys.elementSyms.get ⟨i, hi⟩))
    ∧ sys.formulaMatrix.getD sys.elementSyms.length []
        = sys.speciesList.map Species.charge := by
  clear h
  refine ⟨?_, ?_, ?_, ?_⟩
  · simp [ChemicalSystem.formulaMatrix]
  · intro row hrow
    simp only [ChemicalSystem.formulaMatrix, List.mem_append, List.mem_map,
      List.mem_singleton] at hrow
    rcases hrow with ⟨e, _, rfl⟩ | rfl <;> simp
  · intro i hi j hj
    have h1 : sys.formulaMatrix.getD i []
        = sys.speciesList.map (fun s => s.coeff (sys.elementSyms.get ⟨i, hi⟩)) := by
      unfold ChemicalSystem.formulaMatrix
      rw [List.getD_eq_getElem?_getD, List.getElem?_append_left (by simpa using hi),
        List.getElem?_map, List.getElem?_eq_getElem hi]
      rfl
    rw [h1, List.getD_eq_getElem?_getD, List.getElem?_map, List.getElem?_eq_getElem hj]
    rfl
  · unfold ChemicalSystem.formulaMatrix
    rw [List.getD_eq_getElem?_getD,
      List.getElem?_append_right (by simp)]
    simp

/-- C2 witness: the theorem instantiated at the reference scenario of the
test. -/
theorem formulaMatrix_spec_witness :
    refSystem.formulaMatrix.length = refSystem.elementSyms.length + 1
    ∧ (∀ row ∈ refSystem.formulaMatrix, row.length = refSystem.speciesList.length)
    ∧ (∀ i, ∀ hi : i < refSystem.elementSyms.length, ∀ j, ∀ hj : j < refSystem.speciesList.length,
        (refSystem.formulaMatrix.getD i []).getD j 0
          = (refSystem.speciesList.get ⟨j, hj⟩).coeff (refSystem.elementSyms.get ⟨i, hi⟩))
    ∧ refSystem.formulaMatrix.getD refSystem.elementSyms.length []
        = refSystem.speciesList.map Species.charge :=
  formulaMatrix_spec refDb refPhaseDecls 0 refSystem (by rfl)

/-- The concrete formula matrix of the reference scenario is exactly the
matrix asserted by the test. -/
theorem refSystem_formulaMatrix : refSystem.formulaMatrix = refMatrix := by decide

/-- C3: the species list of a successfully constructed system is the
concatenation of its phases' species lists in phase-declaration order, so
its size is the sum of the phase species counts; and in the reference
scenario (11-species aqueous phase, 2-species gaseous phase, five
single-mineral phases) the assembled system has 8 elements, 18 species and
7 phases. -/
theorem speciesCount_spec :
    (∀ (db : Database) (decls : List PhaseDecl) (n : Nat) (sys : ChemicalSystem),
      assemble db decls n = Except.ok sys →
        sys.speciesList = (sys.phaseList.map Phase.speciesList).flatten
        ∧ sys.speciesList.length
            = (sys.phaseList.map (fun p => p.speciesList.length)).sum)
    ∧ refSystem.elementSyms.length = 8
    ∧ refSystem.speciesList.length = 18
    ∧ refSystem.phaseList.length = 7 := by
  refine ⟨?_, by rfl, by rfl, by rfl⟩
  intro db decls n sys h
  obtain ⟨phs, _, rfl⟩ := assemble_ok_inv db decls n sys h
  refine ⟨rfl, ?_⟩
  show ((phs.map Phase.speciesList).flatten).length = _
  rw [List.length_flatten, List.map_map]
  rfl

/-- C3 witness: the general part of the theorem applied to the reference
construction. -/
theorem speciesCount_spec_witness :
    refSystem.speciesList = (refSystem.phaseList.map Phase.speciesList).flatten
    ∧ refSystem.speciesList.length
        = (refSystem.phaseList.map (fun p => p.speciesList.length)).sum :=
  speciesCount_spec.1 refDb refPhaseDecls 0 refSystem (by rfl)

/-- The element/species/phase view of a system: everything the indexed
lookups by position observe, excluding the attached reactions, surfaces,
database back-reference and id. -/
def coreView (sys : ChemicalSystem) : List String × List Species × List Phase :=
  (sys.elementSyms, sys.speciesList, sys.phaseList)

/-- The variadic construction agrees with the phases-collection construction
on the element/species/phase view, for any two counter values. -/
theorem assembleItems_coreView (db : Database) (items : List Item) (n m : Nat) :
    (assembleItems db items n).map coreView
      = (assemble db (phaseDeclsOf items) m).map coreView := by
  unfold assembleItems assemble
  cases resolvePhases db (phaseDeclsOf items) <;> rfl

/-- Phase declarations of a cons of items. -/
theorem phaseDeclsOf_cons (it : Item) (l : List Item) :
    phaseDeclsOf (it :: l) = itemPhases it ++ phaseDeclsOf l := rfl

/-- Whether a variadic item is phase-kind (a phase declaration or a
multi-mineral declaration). -/
def isPhaseItem : Item → Bool
  | Item.phase _ => true
  | Item.minerals _ => true
  | Item.reaction _ => false
  | Item.surface _ => false

/-- Removing the reaction-kind and surface-kind items leaves the phase
declarations of a variadic item list unchanged. -/
theorem phaseDeclsOf_filter (items : List Item) :
    phaseDeclsOf (items.filter isPhaseItem) = phaseDeclsOf items := by
  induction items with
  | nil => rfl
  | cons it rest ih =>
    cases it <;>
      simp only [List.filter, isPhaseItem, phaseDeclsOf_cons, itemPhases, ih,
        List.nil_append, cond_true, cond_false]

/-- C5: the two construction shapes are equivalent: for the same database and
the same phase declarations in the same order, the phases-collection
construction and the variadic construction produce the same element,
species and phase lists (hence counts and ordering), a multi-mineral
declaration naming k minerals expanding to k single-mineral phases at its
position; in particular the test's variadic list expands exactly to the
test's phases collection and both constructions agree. -/
theorem construction_shapes_equivalent :
    (∀ (db : Database) (items : List Item) (n m : Nat),
      (assembleItems db items n).map coreView
        = (assemble db (phaseDeclsOf items) m).map coreView)
    ∧ (∀ ms : List String, itemPhases (Item.minerals ms) = ms.map mineralPhase)
    ∧ phaseDeclsOf refItems = refPhaseDecls
    ∧ (assembleItems refDb refItems 0).map coreView
        = (assemble refDb refPhaseDecls 0).map coreView := by
  refine ⟨assembleItems_coreView, fun ms => rfl, by rfl, ?_⟩
  rw [assembleItems_coreView refDb refItems 0 0]
  rfl

/-- C6: attaching reaction-kind and surface-kind items at construction does
not alter the element, species or phase indexing: any variadic item list
yields the same element/species/phase view as its restriction to the
phase-kind items; in particular the test's mixed construction agrees with
the phase-only construction on that view. -/
theorem reactions_surfaces_frame :
    (∀ (db : Database) (items : List Item) (n m : Nat),
      (assembleItems db items n).map coreView
        = (assembleItems db (items.filter isPhaseItem) m).map coreView)
    ∧ (assembleItems refDb refItemsMixed 0).map coreView
        = (assembleItems refDb refItems 0).map coreView := by
  have key : ∀ (db : Database) (items : List Item) (n m : Nat),
      (assembleItems db items n).map coreView
        = (assembleItems db (items.filter isPhaseItem) m).map coreView := by
    intro db items n m
    rw [assembleItems_coreView db items n m,
      assembleItems_coreView db (items.filter isPhaseItem) m m,
      phaseDeclsOf_filter]
  refine ⟨key, ?_⟩
  have h1 := key refDb refItemsMixed 0 0
  have h2 : refItemsMixed.filter isPhaseItem = refItems := by rfl
  rw [h1, h2]

/-- The system of the phase-only variadic construction of the test. -/
def refSystemItems : ChemicalSystem :=
  (assembleItems refDb refItems 0).toOption.getD (buildSystem emptyDatabase [] [] [] 0)

/-- The system of the mixed variadic construction of the test. -/
def refSystemMixed : ChemicalSystem :=
  (assembleItems refDb refItemsMixed 0).toOption.getD (buildSystem emptyDatabase [] [] [] 0)

/-- C4: the mixed construction of the test — two database-derived reactions,
two general reactions, one built-in surface and one general surface
interleaved with the phase declarations — succeeds with four reactions and
two surfaces, while its element, species and phase counts (8, 18, 7) equal
those of the phase-only construction. -/
theorem mixed_construction_counts :
    assembleItems refDb refItemsMixed 0 = Except.ok refSystemMixed
    ∧ refSystemMixed.reactionList.length = 4
    ∧ refSystemMixed.surfaceList.length = 2
    ∧ refSystemMixed.elementSyms.length = 8
    ∧ refSystemMixed.speciesList.length = 18
    ∧ refSystemMixed.phaseList.length = 7
    ∧ refSystemMixed.reactionList
        = [reaction1, reaction2, generalreaction1, generalreaction2]
    ∧ refSystemMixed.surfaceList = [surface1, surface2]
    ∧ refSystemMixed.elementSyms = refSystemItems.elementSyms
    ∧ refSystemMixed.speciesList = refSystemItems.speciesList
    ∧ refSystemMixed.phaseList = refSystemItems.phaseList :=
  ⟨rfl, rfl, rfl, rfl, rfl, rfl, rfl, rfl, rfl, rfl, rfl⟩

/-- Every item of a phase-only list contributes no reactions and no
surfaces. -/
theorem flatten_reactions_nil (l : List Item)
    (hall : ∀ it ∈ l, isPhaseItem it = true) :
    (l.map itemReactions).flatten = ([] : List Reaction) := by
  induction l with
  | nil => rfl
  | cons it rest ih =>
    have h1 := hall it (List.mem_cons_self it rest)
    have h2 := ih (fun x hx => hall x (List.mem_cons_of_mem it hx))
    cases it with
    | phase p => simpa [itemReactions] using h2
    | minerals ms => simpa [itemReactions] using h2
    | reaction r => simp [isPhaseItem] at h1
    | surface s => simp [isPhaseItem] at h1

/-- C10: constructing from a database and only phase-kind items (no
reaction-kind and no surface-kind items) yields an empty reaction list. -/
theorem phaseOnly_no_reactions (db : Database) (items : List Item) (n : Nat)
    (sys : ChemicalSystem) (hall : ∀ it ∈ items, isPhaseItem it = true)
    (h : assembleItems db items n = Except.ok sys) :
    sys.reactionList = [] ∧ sys.reactionList.length = 0 := by
  obtain ⟨phs, hr, rfl⟩ := assembleItems_ok_inv db items n sys h
  have hnil := flatten_reactions_nil items hall
  constructor
  · exact hnil
  · show ((items.map itemReactions).flatten).length = 0
    rw [hnil]
    rfl

/-- C10 witness: the phase-only variadic construction of the test has an
empty reaction list. -/
theorem phaseOnly_no_reactions_witness :
    refSystemItems.reactionList = [] ∧ refSystemItems.reactionList.length = 0 :=
  phaseOnly_no_reactions refDb refItems 0 refSystemItems (by decide) (by rfl)

/-- If a name list resolves successfully, every name in it resolves. -/
theorem resolveNames_ok_all (db : Database) (l : List String) (sl : List Species)
    (h : resolveNames db l = Except.ok sl) :
    ∀ nm ∈ l, ∃ s, db.findSpecies nm = some s := by
  induction l generalizing sl with
  | nil =>
    intro nm hnm
    simp at hnm
  | cons x rest ih =>
    intro nm hnm
    simp only [resolveNames] at h
    split at h
    next s hs =>
      split at h
      next l2 hl2 =>
        rcases List.mem_cons.mp hnm with rfl | hmem
        · exact ⟨s, hs⟩
        · exact ih l2 hl2 nm hmem
      next e he => simp at h
    next hs => simp at h

/-- Every species produced by a successful name resolution is a species of
the database. -/
theorem resolveNames_ok_mem (db : Database) (l : List String) (sl : List Species)
    (h : resolveNames db l = Except.ok sl) :
    ∀ s ∈ sl, s ∈ db.speciesList := by
  induction l generalizing sl with
  | nil =>
    simp only [resolveNames] at h
    cases h
    intro s hs
    simp at hs
  | cons x rest ih =>
    simp only [resolveNames] at h
    split at h
    next sp hsp =>
      split at h
      next l2 hl2 =>
        cases h
        intro s hs
        rcases List.mem_cons.mp hs with rfl | hmem
        · exact List.mem_of_find?_eq_some hsp
        · exact ih l2 hl2 s hmem
      next e he => simp at h
    next hs => simp at h

/-- If the phase declarations resolve successfully, every species name of
every declaration resolves against the database. -/
theorem resolvePhases_ok_all (db : Database) (decls : List PhaseDecl)
    (phs : List Phase) (h : resolvePhases db decls = Except.ok phs) :
    ∀ p ∈ decls, ∀ nm ∈ p.speciesNames, ∃ s, db.findSpecies nm = some s := by
  induction decls generalizing phs with
  | nil =>
    intro p hp
    simp at hp
  | cons q rest ih =>
    intro p hp nm hnm
    simp only [resolvePhases] at h
    split at h
    next ph0 hph0 =>
      split at h
      next l2 hl2 =>
        rcases List.mem_cons.mp hp with rfl | hmem
        · unfold resolvePhase at hph0
          split at hph0
          next sl hsl => exact resolveNames_ok_all db p.speciesNames sl hsl nm hnm
          next e he => simp at hph0
        · exact ih l2 hl2 p hmem nm hnm
      next e he => simp at h
    next e hph0 => simp at h

/-- Every species of every successfully resolved phase is a species of the
database. -/
theorem resolvePhases_ok_mem (db : Database) (decls : List PhaseDecl)
    (phs : List Phase) (h : resolvePhases db decls = Except.ok phs) :
    ∀ ph ∈ phs, ∀ s ∈ ph.speciesList, s ∈ db.speciesList := by
  induction decls generalizing phs with
  | nil =>
    simp only [resolvePhases] at h
    cases h
    intro ph hph
    simp at hph
  | cons q rest ih =>
    simp only [resolvePhases] at h
    split at h
    next ph0 hph0 =>
      split at h
      next l2 hl2 =>
        cases h
        intro ph hph s hs
        rcases List.mem_cons.mp hph with rfl | hmem
        · unfold resolvePhase at hph0
          split at hph0
          next sl hsl =>
            injection hph0 with h2
            subst h2
            exact resolveNames_ok_mem db q.speciesNames sl hsl s hs
          next e he => simp at hph0
        · exact ih l2 hl2 ph hmem s hs
      next e he => simp at h
    next e hph0 => simp at h

/-- C7: a phase declaration containing a species name that fails to resolve
against the database makes construction fail at construction time with a
descriptive error; no partially-built system is observable — the
construction returns an error and never a system. -/
theorem unresolved_species_fails (db : Database) (decls : List PhaseDecl)
    (n : Nat)
    (hbad : ∃ p ∈ decls, ∃ nm ∈ p.speciesNames, db.findSpecies nm = none) :
    (∃ msg, assemble db decls n = Except.error msg)
    ∧ ∀ sys, assemble db decls n ≠ Except.ok sys := by
  obtain ⟨p, hp, nm, hnm, hnone⟩ := hbad
  have herr : ∀ sys, assemble db decls n ≠ Except.ok sys := by
    intro sys h
    obtain ⟨phs, hr, _⟩ := assemble_ok_inv db decls n sys h
    obtain ⟨s, hs⟩ := resolvePhases_ok_all db decls phs hr p hp nm hnm
    rw [hnone] at hs
    cases hs
  refine ⟨?_, herr⟩
  cases hA : assemble db decls n with
  | ok sys => exact absurd hA (herr sys)
  | error e => exact ⟨e, rfl⟩

/-- A phase list containing a species name absent from the reference
database. -/
def badPhaseDecls : List PhaseDecl := [aqueousPhase, ⟨"MineralPhase", ["Unicorn"]⟩]

/-- C7 witness: the construction with the unresolvable species name fails. -/
theorem unresolved_species_fails_witness :
    (∃ p ∈ badPhaseDecls, ∃ nm ∈ p.speciesNames, refDb.findSpecies nm = none)
    ∧ ((∃ msg, assemble refDb badPhaseDecls 0 = Except.error msg)
        ∧ ∀ sys, assemble refDb badPhaseDecls 0 ≠ Except.ok sys) :=
  ⟨by decide, unresolved_species_fails refDb badPhaseDecls 0 (by decide)⟩

/-- C8: the global element list of a successfully constructed system is the
database's element ordering restricted to the elements referenced by the
resolved species — a sublist of the database's element list (so it is
ordered consistently with the database, not insertion-random), without
duplicates when the database has none, and containing exactly the elements
referenced by some included species (for a database whose species reference
only catalogued elements); in the reference scenario element 0 is H and
element 1 is C. -/
theorem element_ordering_spec :
    (∀ (db : Database) (decls : List PhaseDecl) (n : Nat) (sys : ChemicalSystem),
      assemble db decls n = Except.ok sys →
        sys.elementSyms = db.elementList.filter (elementUsed sys.phaseList)
        ∧ sys.elementSyms.Sublist db.elementList
        ∧ (db.elementList.Nodup → sys.elementSyms.Nodup)
        ∧ ((∀ s ∈ db.speciesList, ∀ q ∈ s.formula, q.1 ∈ db.elementList) →
            ∀ e, e ∈ sys.elementSyms
              ↔ ∃ s ∈ sys.speciesList, ∃ q ∈ s.formula, q.1 = e))
    ∧ refSystem.elementSyms = ["H", "C", "O", "Na", "Mg", "Si", "Cl", "Ca"]
    ∧ refSystem.elementSyms.getD 0 "" = "H"
    ∧ refSystem.elementSyms.getD 1 "" = "C" := by
  refine ⟨?_, by rfl, by rfl, by rfl⟩
  intro db decls n sys h
  obtain ⟨phs, hr, rfl⟩ := assemble_ok_inv db decls n sys h
  have hmemdb := resolvePhases_ok_mem db decls phs hr
  refine ⟨rfl, List.filter_sublist _, fun hnd => hnd.filter _, ?_⟩
  intro hwf e
  show e ∈ db.elementList.filter (elementUsed phs) ↔ _
  rw [List.mem_filter]
  constructor
  · rintro ⟨hedb, hused⟩
    simp only [elementUsed, List.any_eq_true, decide_eq_true_eq] at hused
    obtain ⟨p, hp, s, hs, q, hq, hqe⟩ := hused
    refine ⟨s, ?_, q, hq, hqe⟩
    show s ∈ (phs.map Phase.speciesList).flatten
    rw [List.mem_flatten]
    exact ⟨p.speciesList, List.mem_map_of_mem Phase.speciesList hp, hs⟩
  · rintro ⟨s, hsmem, q, hq, hqe⟩
    have hsflat : s ∈ (phs.map Phase.speciesList).flatten := hsmem
    rw [List.mem_flatten] at hsflat
    obtain ⟨l, hl, hsl⟩ := hsflat
    rw [List.mem_map] at hl
    obtain ⟨p, hp, rfl⟩ := hl
    refine ⟨hqe ▸ hwf s (hmemdb p hp s hsl) q hq, ?_⟩
    simp only [elementUsed, List.any_eq_true, decide_eq_true_eq]
    exact ⟨p, hp, s, hsl, q, hq, hqe⟩

/-- C8 witness: the general statement instantiated at the reference
construction, with the database hypotheses discharged concretely. -/
theorem element_ordering_spec_witness :
    refDb.elementList.Nodup
    ∧ (∀ s ∈ refDb.speciesList, ∀ q ∈ s.formula, q.1 ∈ refDb.elementList)
    ∧ refSystem.elementSyms.Sublist refDb.elementList
    ∧ refSystem.elementSyms.Nodup
    ∧ ∀ e, e ∈ refSystem.elementSyms
        ↔ ∃ s ∈ refSystem.speciesList, ∃ q ∈ s.formula, q.1 = e :=
  ⟨by decide, by decide,
   (element_ordering_spec.1 refDb refPhaseDecls 0 refSystem (by rfl)).2.1,
   (element_ordering_spec.1 refDb refPhaseDecls 0 refSystem (by rfl)).2.2.1 (by decide),
   (element_ordering_spec.1 refDb refPhaseDecls 0 refSystem (by rfl)).2.2.2 (by decide)⟩

end Reaktoro
